import Mathlib

/-!
# Order persistence of the checkout service (src/checkoutservice/db.go)

A shallow embedding of the order repository: the three operations
NewOrderRepository, SaveOrder and Close over an explicit world state that
holds the process environment, the connection pools created so far and the
database the pools talk to.

The two SQL texts of the source (the schema script and the insert) are
embedded as data and given their meaning by a small interpreter over the
database state.  Everything that the source leaves to its surroundings is an
explicit input: the transport outcome of each driver call (time-out,
cancellation, lost connection) and the check the JSONB column type makes on
its input.
-/

namespace Checkout

/-! ## Errors -/

/-- An error value produced by the pgx driver or by the database server. -/
inductive DriverError where
  /-- the call did not complete: bad connection string, lost connection,
  expired or cancelled context -/
  | transport (detail : String)
  /-- the pool was closed before the call -/
  | closedPool
  /-- the statement names a table that does not exist -/
  | undefinedTable (name : String)
  /-- a relation of that name exists and the statement has no IF NOT EXISTS -/
  | duplicateObject (name : String)
  /-- a NULL was bound to a NOT NULL column -/
  | notNullViolation (column : String)
  /-- the bytes bound to a JSONB column are not a JSON document -/
  | invalidJSON (column : String)
  /-- the bound value has no conversion to the column type -/
  | datatypeMismatch (column : String)
  /-- a row with the same primary key exists and the insert has no conflict clause -/
  | uniqueViolation (column : String)
  /-- the number of bound values is not the number of placeholders -/
  | parameterCount
  deriving DecidableEq

/-- A Go error value as the repository hands it to its caller: either the
driver error itself, or a new error made by fmt.Errorf from a format string,
which wraps the operand of its %w verb when it has one. -/
inductive GoError where
  | driver (e : DriverError)
  | errorf (format : String) (wrapped : Option DriverError)
  deriving DecidableEq

/-- Whether the error is a new error with a description that wraps an
underlying driver error. -/
def GoError.wrapsDriver : GoError → Bool
  | .errorf _ (some _) => true
  | _ => false

/-- How a Go call ends: it returns a value, or it panics on a nil pointer. -/
inductive Ret (α : Type) where
  | returned (a : α)
  | panicked
  deriving DecidableEq

/-! ## Data model -/

/-- OrderRecord (db.go lines 17-29).  TotalUnits is an int64 and TotalNanos an
int32; no arithmetic is done on them.  A byte slice may be nil, which is
none here.  CreatedAt is the instant as a number. -/
structure OrderRecord where
  OrderID : String
  UserID : String
  Email : String
  CurrencyCode : String
  TotalUnits : Int
  TotalNanos : Int
  PaymentTransaction : String
  ShippingTrackingID : String
  ShippingAddressJSON : Option (List Nat)
  ItemsJSON : Option (List Nat)
  CreatedAt : Int
  deriving DecidableEq

/-- One stored row of the orders table: the eleven columns of the schema
(db.go lines 63-73), every one NOT NULL. -/
structure Row where
  order_id : String
  user_id : String
  email : String
  currency_code : String
  total_units : Int
  total_nanos : Int
  payment_transaction : String
  shipping_tracking_id : String
  shipping_address : List Nat
  items : List Nat
  created_at : Int
  deriving DecidableEq

/-- A value bound to a placeholder of a statement.  The driver sends a nil
byte slice as NULL. -/
inductive Value where
  | text (s : String)
  | int8 (n : Int)
  | int4 (n : Int)
  | bytes (b : List Nat)
  | timestamptz (t : Int)
  | null
  deriving DecidableEq

/-- What a relation of the catalog is. -/
inductive RelKind where
  | table
  | index (onTable : String) (column : String) (desc : Bool)
  deriving DecidableEq

/-- A named relation of the database catalog.  Tables and indexes share one
name space.  The index of a primary key belongs to its table here: the index
relations are the secondary indexes. -/
structure Relation where
  name : String
  kind : RelKind
  deriving DecidableEq

/-- The database: its catalog, and the rows of the table named orders (of
meaning while the catalog has that table, which is taken to have the columns
of the schema script). -/
structure Database where
  catalog : List Relation
  rows : List Row
  deriving DecidableEq

/-- The statements the source sends. -/
inductive Stmt where
  | createTable (ifNotExists : Bool) (name : String)
  | createIndex (ifNotExists : Bool) (name : String) (onTable : String)
      (column : String) (desc : Bool)
  /-- INSERT INTO orders (the eleven columns) VALUES ($1 .. $11), with or
  without ON CONFLICT (order_id) DO NOTHING -/
  | insertOrder (onConflictDoNothing : Bool)
  deriving DecidableEq

/-- A connection pool made by pgxpool.New. -/
structure PoolState where
  dsn : String
  closed : Bool
  deriving DecidableEq

/-- A call made to the driver. -/
inductive Call where
  | poolNew (dsn : String)
  | ping (pool : Nat)
  | exec (pool : Nat) (sql : List Stmt)
  | close (pool : Nat)
  deriving DecidableEq

/-- Everything outside the repository object: the process environment, the
pools created so far (a pool handle is its position), the database, and the
driver calls made so far. -/
structure World where
  environ : List (String × String)
  pools : List PoolState
  db : Database
  log : List Call
  deriving DecidableEq

/-- OrderRepository (db.go lines 13-15): a pool pointer, which may be nil. -/
structure OrderRepository where
  pool : Option Nat
  deriving DecidableEq

/-! ## The database server -/

/-- Whether the catalog has a relation of that name. -/
def Database.hasRelation (db : Database) (name : String) : Bool :=
  db.catalog.any (fun r => r.name == name)

/-- Whether the catalog has a table of that name. -/
def Database.hasTable (db : Database) (name : String) : Bool :=
  db.catalog.any (fun r => r.name == name && r.kind == RelKind.table)

/-- Input of a TEXT NOT NULL column. -/
def asText (column : String) : Value → Except DriverError String
  | .text s => .ok s
  | .null => .error (.notNullViolation column)
  | _ => .error (.datatypeMismatch column)

/-- Input of a BIGINT NOT NULL column. -/
def asInt8 (column : String) : Value → Except DriverError Int
  | .int8 n => .ok n
  | .null => .error (.notNullViolation column)
  | _ => .error (.datatypeMismatch column)

/-- Input of an INT NOT NULL column. -/
def asInt4 (column : String) : Value → Except DriverError Int
  | .int4 n => .ok n
  | .null => .error (.notNullViolation column)
  | _ => .error (.datatypeMismatch column)

/-- Input of a JSONB NOT NULL column: the bytes must be a JSON document, which
is what jsonb_in decides. -/
def asJsonb (jsonb_in : List Nat → Bool) (column : String) : Value → Except DriverError (List Nat)
  | .bytes b => if jsonb_in b then .ok b else .error (.invalidJSON column)
  | .null => .error (.notNullViolation column)
  | _ => .error (.datatypeMismatch column)

/-- Input of a TIMESTAMPTZ NOT NULL column. -/
def asTimestamptz (column : String) : Value → Except DriverError Int
  | .timestamptz t => .ok t
  | .null => .error (.notNullViolation column)
  | _ => .error (.datatypeMismatch column)

/-- The candidate row of the insert: placeholder i goes to the i-th column of
the column list of the statement (db.go lines 85-87), and each column applies
its type and its NOT NULL constraint (lines 63-73). -/
def bindRow (jsonb_in : List Nat → Bool) : List Value → Except DriverError Row
  | [v1, v2, v3, v4, v5, v6, v7, v8, v9, v10, v11] => do
      let order_id ← asText "order_id" v1
      let user_id ← asText "user_id" v2
      let email ← asText "email" v3
      let currency_code ← asText "currency_code" v4
      let total_units ← asInt8 "total_units" v5
      let total_nanos ← asInt4 "total_nanos" v6
      let payment_transaction ← asText "payment_transaction" v7
      let shipping_tracking_id ← asText "shipping_tracking_id" v8
      let shipping_address ← asJsonb jsonb_in "shipping_address" v9
      let items ← asJsonb jsonb_in "items" v10
      let created_at ← asTimestamptz "created_at" v11
      pure { order_id, user_id, email, currency_code, total_units, total_nanos,
             payment_transaction, shipping_tracking_id, shipping_address, items,
             created_at }
  | _ => .error .parameterCount

/-- One statement run against the database. -/
def execStmt (jsonb_in : List Nat → Bool) (args : List Value) :
    Stmt → Database → Except DriverError Database
  | .createTable ifNotExists name, db =>
      if db.hasRelation name then
        if ifNotExists then .ok db else .error (.duplicateObject name)
      else
        .ok { catalog := db.catalog ++ [⟨name, .table⟩],
              rows := if name = "orders" then [] else db.rows }
  | .createIndex ifNotExists name onTable column desc, db =>
      if db.hasTable onTable then
        if db.hasRelation name then
          if ifNotExists then .ok db else .error (.duplicateObject name)
        else
          .ok { db with catalog := db.catalog ++ [⟨name, .index onTable column desc⟩] }
      else .error (.undefinedTable onTable)
  | .insertOrder onConflictDoNothing, db =>
      if db.hasTable "orders" then
        match bindRow jsonb_in args with
        | .error e => .error e
        | .ok row =>
            if db.rows.any (fun r => r.order_id == row.order_id) then
              if onConflictDoNothing then .ok db else .error (.uniqueViolation "order_id")
            else .ok { db with rows := db.rows ++ [row] }
      else .error (.undefinedTable "orders")

/-- The statements of one Exec call, run in order; the first error ends the
run. -/
def execScript (jsonb_in : List Nat → Bool) (args : List Value) :
    List Stmt → Database → Except DriverError Database
  | [], db => .ok db
  | s :: rest, db =>
      match execStmt jsonb_in args s db with
      | .error e => .error e
      | .ok db1 => execScript jsonb_in args rest db1

/-! ## The driver (pgxpool) -/

/-- Lookup of a variable of the environment; an unset variable reads as the
empty string (os.Getenv). -/
def World.Getenv (w : World) (key : String) : String :=
  (w.environ.lookup key).getD ""

/-- Whether the handle is a pool that has not been closed. -/
def World.poolOpen (w : World) (p : Nat) : Bool :=
  match w.pools[p]? with
  | some s => !s.closed
  | none => false

namespace pgxpool

/-- Creation of a pool: on failure no pool exists, otherwise a new open pool is
added and its handle returned.  The fault of a driver call is what the
transport and the context passed to the call make of it; none means the call
goes through. -/
def New (fault : Option DriverError) (w : World) (dsn : String) :
    Except DriverError Nat × World :=
  let w1 := { w with log := w.log ++ [Call.poolNew dsn] }
  match fault with
  | some e => (.error e, w1)
  | none => (.ok w.pools.length, { w1 with pools := w.pools ++ [⟨dsn, false⟩] })

/-- Liveness check: a round trip to the server. -/
def Ping (fault : Option DriverError) (w : World) (p : Nat) : Option DriverError × World :=
  let w1 := { w with log := w.log ++ [Call.ping p] }
  if w.poolOpen p then (fault, w1) else (some .closedPool, w1)

/-- Exec: the statements run as one unit on the server, so a failed call
leaves the database as it was. -/
def Exec (jsonb_in : List Nat → Bool) (fault : Option DriverError) (w : World) (p : Nat)
    (sql : List Stmt) (args : List Value) : Option DriverError × World :=
  let w1 := { w with log := w.log ++ [Call.exec p sql] }
  if w.poolOpen p then
    match fault with
    | some e => (some e, w1)
    | none =>
        match execScript jsonb_in args sql w.db with
        | .error e => (some e, w1)
        | .ok db => (none, { w1 with db := db })
  else (some .closedPool, w1)

/-- Close releases the pool; closing a closed pool changes nothing (the driver
guards the release with a once). -/
def Close (w : World) (p : Nat) : World :=
  let w1 := { w with log := w.log ++ [Call.close p] }
  match w.pools[p]? with
  | some s => { w1 with pools := w.pools.set p { s with closed := true } }
  | none => w1

end pgxpool

/-! ## The repository (db.go) -/

/-- The schema script of ensureSchema (db.go lines 61-77). -/
def schema : List Stmt :=
  [ .createTable true "orders",
    .createIndex true "idx_orders_user_id" "orders" "user_id" false,
    .createIndex true "idx_orders_created_at" "orders" "created_at" true ]

/-- The insert of SaveOrder (db.go lines 83-89). -/
def insertSQL : List Stmt :=
  [ .insertOrder true ]

/-- The eleven values SaveOrder binds, in the order of db.go lines 91-101. -/
def saveOrderArgs (rec : OrderRecord) : List Value :=
  let bytes : Option (List Nat) → Value := fun b =>
    match b with
    | some b => .bytes b
    | none => .null
  [ .text rec.OrderID,
    .text rec.UserID,
    .text rec.Email,
    .text rec.CurrencyCode,
    .int8 rec.TotalUnits,
    .int4 rec.TotalNanos,
    .text rec.PaymentTransaction,
    .text rec.ShippingTrackingID,
    bytes rec.ShippingAddressJSON,
    bytes rec.ItemsJSON,
    .timestamptz rec.CreatedAt ]

/-- Close (db.go lines 53-57). -/
def OrderRepository.Close (r : OrderRepository) (w : World) : World :=
  match r.pool with
  | some p => pgxpool.Close w p
  | none => w

/-- The method ensureSchema (db.go lines 59-80): the error of Exec is returned
as it is. -/
def OrderRepository.ensureSchema (jsonb_in : List Nat → Bool) (fault : Option DriverError)
    (r : OrderRepository) (w : World) : Ret (Option GoError) × World :=
  match r.pool with
  | none => (.panicked, w)
  | some p =>
      match pgxpool.Exec jsonb_in fault w p schema [] with
      | (err, w1) => (.returned (err.map GoError.driver), w1)

/-- SaveOrder (db.go lines 82-104): the error of Exec is returned as it is. -/
def OrderRepository.SaveOrder (jsonb_in : List Nat → Bool) (fault : Option DriverError)
    (r : OrderRepository) (w : World) (rec : OrderRecord) : Ret (Option GoError) × World :=
  match r.pool with
  | none => (.panicked, w)
  | some p =>
      match pgxpool.Exec jsonb_in fault w p insertSQL (saveOrderArgs rec) with
      | (err, w1) => (.returned (err.map GoError.driver), w1)

/-- The transport outcome of each of the three driver calls of construction;
none means the call reaches its destination. -/
structure Stages where
  poolNew : Option DriverError
  ping : Option DriverError
  exec : Option DriverError
  deriving DecidableEq

/-- NewOrderRepository (db.go lines 31-51).  The result is the pair the
function returns, a repository pointer and an error.  On a failed schema setup
the pool is closed through the pool pointer itself (line 47). -/
def NewOrderRepository (jsonb_in : List Nat → Bool) (o : Stages) (w : World) :
    Ret (Option OrderRepository × Option GoError) × World :=
  let dsn := w.Getenv "ORDER_DB_DSN"
  if dsn = "" then
    (.returned (none, some (.errorf "environment variable ORDER_DB_DSN not set" none)), w)
  else
    match pgxpool.New o.poolNew w dsn with
    | (.error err, w1) =>
        (.returned (none, some (.errorf "failed to create pgx pool: %w" (some err))), w1)
    | (.ok pool, w1) =>
        match pgxpool.Ping o.ping w1 pool with
        | (some err, w2) =>
            (.returned (none, some (.errorf "failed to ping database: %w" (some err))),
              pgxpool.Close w2 pool)
        | (none, w2) =>
            let repo : OrderRepository := { pool := some pool }
            match repo.ensureSchema jsonb_in o.exec w2 with
            | (.panicked, w3) => (.panicked, w3)
            | (.returned (some err), w3) =>
                (.returned (none, some err), pgxpool.Close w3 pool)
            | (.returned none, w3) => (.returned (some repo, none), w3)


/-! ## Observations used to state the properties -/

/-- The eleven columns of the row hold the eleven fields of the record, each
column the field bound to it. -/
def Row.hasFieldsOf (row : Row) (rec : OrderRecord) : Prop :=
  row.order_id = rec.OrderID ∧
  row.user_id = rec.UserID ∧
  row.email = rec.Email ∧
  row.currency_code = rec.CurrencyCode ∧
  row.total_units = rec.TotalUnits ∧
  row.total_nanos = rec.TotalNanos ∧
  row.payment_transaction = rec.PaymentTransaction ∧
  row.shipping_tracking_id = rec.ShippingTrackingID ∧
  some row.shipping_address = rec.ShippingAddressJSON ∧
  some row.items = rec.ItemsJSON ∧
  row.created_at = rec.CreatedAt

instance (row : Row) (rec : OrderRecord) : Decidable (row.hasFieldsOf rec) := by
  unfold Row.hasFieldsOf
  infer_instance

/-- The record passes the checks of the columns: both byte slices are non-nil
and are JSON documents for the JSONB input check. -/
def OrderRecord.insertable (rec : OrderRecord) (jsonb_in : List Nat → Bool) : Bool :=
  match rec.ShippingAddressJSON, rec.ItemsJSON with
  | some address, some items => jsonb_in address && jsonb_in items
  | _, _ => false

/-- The stored rows with the given order_id (a lookup by primary key). -/
def Database.rowsWithId (db : Database) (id : String) : List Row :=
  db.rows.filter (fun r => r.order_id == id)

/-- The number of relations of the catalog with the given name. -/
def Database.relationCount (db : Database) (name : String) : Nat :=
  db.catalog.countP (fun r => r.name == name)

/-- The indexes of the catalog on the given table. -/
def Database.indexesOn (db : Database) (onTable : String) : List Relation :=
  db.catalog.filter (fun r =>
    match r.kind with
    | .index t _ _ => t == onTable
    | .table => false)

/-- The catalog with a relation added unless its name is taken. -/
def ensureRelation (cat : List Relation) (rel : Relation) : List Relation :=
  if cat.any (fun r => r.name == rel.name) then cat else cat ++ [rel]

/-- The three relations the schema script declares. -/
def schemaRelations : List Relation :=
  [ ⟨"orders", .table⟩,
    ⟨"idx_orders_user_id", .index "orders" "user_id" false⟩,
    ⟨"idx_orders_created_at", .index "orders" "created_at" true⟩ ]

/-- One SaveOrder call of a sequence: the transport outcome, the repository it
is made on and the record. -/
structure SaveCall where
  fault : Option DriverError
  repo : OrderRepository
  record : OrderRecord

/-- The world after a sequence of SaveOrder calls. -/
def saveAll (jsonb_in : List Nat → Bool) : List SaveCall → World → World
  | [], w => w
  | c :: rest, w => saveAll jsonb_in rest (c.repo.SaveOrder jsonb_in c.fault w c.record).2

/-- The results of a sequence of SaveOrder calls, in order, and the world
after them. -/
def saveEach (jsonb_in : List Nat → Bool) :
    List SaveCall → World → List (Ret (Option GoError)) × World
  | [], w => ([], w)
  | c :: rest, w =>
      ((c.repo.SaveOrder jsonb_in c.fault w c.record).1
          :: (saveEach jsonb_in rest (c.repo.SaveOrder jsonb_in c.fault w c.record).2).1,
        (saveEach jsonb_in rest (c.repo.SaveOrder jsonb_in c.fault w c.record).2).2)

/-- The calls that save the records in order on one pool, each reaching the
database. -/
def savesOn (p : Nat) (recs : List OrderRecord) : List SaveCall :=
  recs.map (fun r => { fault := none, repo := ⟨some p⟩, record := r })

/-! ## Concrete inputs -/

/-- A JSONB input check for the concrete runs: every non-empty byte string is
taken as a document. -/
def nonEmptyJson : List Nat → Bool := fun b => !b.isEmpty

/-- Every driver call of construction reaches its destination. -/
def allStagesOk : Stages := { poolNew := none, ping := none, exec := none }

/-- A process with the connection string set, no pool yet, and an empty
database. -/
def freshWorld : World :=
  { environ := [("ORDER_DB_DSN", "postgres://orders")], pools := [],
    db := { catalog := [], rows := [] }, log := [] }

/-- A process whose environment has no connection string. -/
def unconfiguredWorld : World :=
  { environ := [("PORT", "5050")], pools := [],
    db := { catalog := [], rows := [] }, log := [] }

/-- A process with one open pool on a database that has the orders table and
its two indexes and no rows. -/
def readyWorld : World :=
  { environ := [("ORDER_DB_DSN", "postgres://orders")],
    pools := [{ dsn := "postgres://orders", closed := false }],
    db := { catalog := [ ⟨"orders", .table⟩,
                         ⟨"idx_orders_user_id", .index "orders" "user_id" false⟩,
                         ⟨"idx_orders_created_at", .index "orders" "created_at" true⟩ ],
            rows := [] },
    log := [] }

/-- An order with total_units 10. -/
def orderA : OrderRecord :=
  { OrderID := "order-1", UserID := "user-1", Email := "a@example.com", CurrencyCode := "USD",
    TotalUnits := 10, TotalNanos := 0, PaymentTransaction := "pay-1",
    ShippingTrackingID := "ship-1", ShippingAddressJSON := some [123, 125],
    ItemsJSON := some [91, 93], CreatedAt := 1700000000 }

/-- A different record under the identifier of orderA, with total_units 20. -/
def orderB : OrderRecord :=
  { OrderID := "order-1", UserID := "user-2", Email := "b@example.com", CurrencyCode := "EUR",
    TotalUnits := 20, TotalNanos := 5, PaymentTransaction := "pay-2",
    ShippingTrackingID := "ship-2", ShippingAddressJSON := some [123, 125],
    ItemsJSON := some [91, 93], CreatedAt := 1700000001 }

/-- An order under another identifier. -/
def orderC : OrderRecord :=
  { OrderID := "order-2", UserID := "user-3", Email := "c@example.com", CurrencyCode := "USD",
    TotalUnits := 30, TotalNanos := 0, PaymentTransaction := "pay-3",
    ShippingTrackingID := "ship-3", ShippingAddressJSON := some [123, 125],
    ItemsJSON := some [91, 93], CreatedAt := 1700000002 }

/-- The record orderA with a nil shipping address slice. -/
def orderANilAddress : OrderRecord :=
  { orderA with ShippingAddressJSON := none }

/-- The record orderB with a nil items slice. -/
def orderBNilItems : OrderRecord :=
  { orderB with ItemsJSON := none }

/-- The record orderC with a nil items slice. -/
def orderCNilItems : OrderRecord :=
  { orderC with ItemsJSON := none }

/-- A database that already has an orders table with an index of its own on
the email column. -/
def legacyWorld : World :=
  { environ := [("ORDER_DB_DSN", "postgres://orders")], pools := [],
    db := { catalog := [ ⟨"orders", .table⟩,
                         ⟨"idx_orders_email", .index "orders" "email" false⟩ ],
            rows := [] },
    log := [] }

/-! ## Construction -/

theorem getElem?_snoc_ge {α : Type} (l : List α) (s : α) (i : Nat) (h : l.length ≤ i) :
    (l ++ [s])[i]? = if i = l.length then some s else none := by
  rw [List.getElem?_append_right h]
  by_cases hi : i = l.length
  · simp [hi]
  · obtain ⟨k, hk⟩ : ∃ k, i - l.length = k + 1 := ⟨i - l.length - 1, by omega⟩
    simp [hi, hk]

/-- No handle past the end of the pool list is an open pool. -/
theorem poolOpen_of_length_le (w : World) (i : Nat) (h : w.pools.length ≤ i) :
    w.poolOpen i = false := by
  simp [World.poolOpen, List.getElem?_eq_none h]

/-- After one pool is added, the only handle past the old end that can be open
is the new one. -/
theorem poolOpen_snoc (w w1 : World) (s : PoolState) (i : Nat)
    (hp : w1.pools = w.pools ++ [s]) (h : w.pools.length ≤ i) :
    w1.poolOpen i = (decide (i = w.pools.length) && !s.closed) := by
  simp only [World.poolOpen, hp, getElem?_snoc_ge _ _ _ h]
  by_cases hi : i = w.pools.length <;> simp [hi]

/-- Construction by cases on the connection string and on the outcome of each
stage: the returned pair and the world it leaves. -/
theorem new_cases (J : List Nat → Bool) (o : Stages) (w : World) :
    NewOrderRepository J o w =
      if w.Getenv "ORDER_DB_DSN" = "" then
        (.returned (none, some (.errorf "environment variable ORDER_DB_DSN not set" none)), w)
      else match o.poolNew with
        | some d =>
            (.returned (none, some (.errorf "failed to create pgx pool: %w" (some d))),
              { w with log := w.log ++ [.poolNew (w.Getenv "ORDER_DB_DSN")] })
        | none => match o.ping with
          | some d =>
              (.returned (none, some (.errorf "failed to ping database: %w" (some d))),
                { w with
                  log := w.log ++ [.poolNew (w.Getenv "ORDER_DB_DSN"), .ping w.pools.length,
                    .close w.pools.length],
                  pools := w.pools ++ [⟨w.Getenv "ORDER_DB_DSN", true⟩] })
          | none => match o.exec with
            | some d =>
                (.returned (none, some (.driver d)),
                  { w with
                    log := w.log ++ [.poolNew (w.Getenv "ORDER_DB_DSN"), .ping w.pools.length,
                      .exec w.pools.length schema, .close w.pools.length],
                    pools := w.pools ++ [⟨w.Getenv "ORDER_DB_DSN", true⟩] })
            | none => match execScript J [] schema w.db with
              | .error d =>
                  (.returned (none, some (.driver d)),
                    { w with
                      log := w.log ++ [.poolNew (w.Getenv "ORDER_DB_DSN"),
                        .ping w.pools.length, .exec w.pools.length schema,
                        .close w.pools.length],
                      pools := w.pools ++ [⟨w.Getenv "ORDER_DB_DSN", true⟩] })
              | .ok db =>
                  (.returned (some ⟨some w.pools.length⟩, none),
                    { w with
                      log := w.log ++ [.poolNew (w.Getenv "ORDER_DB_DSN"),
                        .ping w.pools.length, .exec w.pools.length schema],
                      pools := w.pools ++ [⟨w.Getenv "ORDER_DB_DSN", false⟩],
                      db := db }) := by
  unfold NewOrderRepository
  by_cases hd : w.Getenv "ORDER_DB_DSN" = ""
  · simp [hd]
  · simp only [hd, if_false]
    cases hn : o.poolNew with
    | some d => simp [pgxpool.New]
    | none =>
      cases hp : o.ping with
      | some d => simp [pgxpool.New, pgxpool.Ping, pgxpool.Close, World.poolOpen]
      | none =>
        cases he : o.exec with
        | some d =>
          simp [pgxpool.New, pgxpool.Ping, pgxpool.Close, World.poolOpen,
            OrderRepository.ensureSchema, pgxpool.Exec, OrderRepository.Close]
        | none =>
          cases hs : execScript J [] schema w.db with
          | error d =>
            simp [pgxpool.New, pgxpool.Ping, pgxpool.Close, World.poolOpen,
              OrderRepository.ensureSchema, pgxpool.Exec, OrderRepository.Close, hs]
          | ok db =>
            simp [pgxpool.New, pgxpool.Ping, pgxpool.Close, World.poolOpen,
              OrderRepository.ensureSchema, pgxpool.Exec, OrderRepository.Close, hs]

/-- Construction either fails, returning no repository and an error, with the
pool list as before or with one closed pool added and the database as it was;
or it succeeds on every stage, returning a repository on the one new pool,
which is open, and the database the schema script leaves. -/
theorem new_outcome (J : List Nat → Bool) (o : Stages) (w : World) :
    ((∃ e, (NewOrderRepository J o w).1 = .returned (none, some e)) ∧
      ((NewOrderRepository J o w).2.pools = w.pools ∨
        (NewOrderRepository J o w).2.pools
          = w.pools ++ [⟨w.Getenv "ORDER_DB_DSN", true⟩]) ∧
      (NewOrderRepository J o w).2.db = w.db ∧
      (w.Getenv "ORDER_DB_DSN" = "" ∨ o.poolNew ≠ none ∨ o.ping ≠ none ∨ o.exec ≠ none ∨
        ∃ d, execScript J [] schema w.db = .error d)) ∨
    ((NewOrderRepository J o w).1 = .returned (some ⟨some w.pools.length⟩, none) ∧
      (NewOrderRepository J o w).2.pools
        = w.pools ++ [⟨w.Getenv "ORDER_DB_DSN", false⟩] ∧
      execScript J [] schema w.db = .ok (NewOrderRepository J o w).2.db ∧
      (NewOrderRepository J o w).2.environ = w.environ ∧
      w.Getenv "ORDER_DB_DSN" ≠ "" ∧ o.poolNew = none ∧ o.ping = none ∧ o.exec = none) := by
  rw [new_cases]
  by_cases hd : w.Getenv "ORDER_DB_DSN" = ""
  · simp [hd]
  · simp only [hd, if_false]
    cases hn : o.poolNew with
    | some d => simp
    | none =>
      cases hp : o.ping with
      | some d => simp
      | none =>
        cases he : o.exec with
        | some d => simp
        | none =>
          cases hs : execScript J [] schema w.db with
          | error d => simp
          | ok db => simp [hd]


/-- C3. When the connection string variable reads as the empty string (as it
does when unset), construction returns no repository and the configuration
error, and the world is exactly as before: no pool was created and no driver
call (pool creation, liveness check, schema statement) was made. -/
theorem new_without_dsn (J : List Nat → Bool) (o : Stages) (w : World)
    (h : w.Getenv "ORDER_DB_DSN" = "") :
    NewOrderRepository J o w =
      (.returned (none, some (.errorf "environment variable ORDER_DB_DSN not set" none)), w) := by
  rw [new_cases]; simp [h]

theorem new_without_dsn_witness :
    unconfiguredWorld.environ.lookup "ORDER_DB_DSN" = none ∧
    unconfiguredWorld.Getenv "ORDER_DB_DSN" = "" ∧
    NewOrderRepository nonEmptyJson allStagesOk unconfiguredWorld =
      (.returned (none, some (.errorf "environment variable ORDER_DB_DSN not set" none)),
        unconfiguredWorld) :=
  ⟨by decide, by decide,
    new_without_dsn nonEmptyJson allStagesOk unconfiguredWorld (by decide)⟩

/-- C4. If any of the three stages fails, construction returns an error and no
repository; whenever it returns an error, no repository is returned and every
pool created during the call (every handle past the pools that existed before)
is closed; and a pool created during the call is open on return only when the
call returns the repository on that pool with no error. -/
theorem new_failure_closes_pools (J : List Nat → Bool) (o : Stages) (w : World) :
    ((o.poolNew ≠ none ∨ o.ping ≠ none ∨ o.exec ≠ none ∨
        (∃ d, execScript J [] schema w.db = .error d)) →
      ∃ e, (NewOrderRepository J o w).1 = .returned (none, some e)) ∧
    (∀ repo e, (NewOrderRepository J o w).1 = .returned (repo, some e) →
      repo = none ∧
      ∀ i, w.pools.length ≤ i → (NewOrderRepository J o w).2.poolOpen i = false) ∧
    (∀ i, w.pools.length ≤ i → (NewOrderRepository J o w).2.poolOpen i = true →
      (NewOrderRepository J o w).1 = .returned (some ⟨some i⟩, none)) := by
  rcases new_outcome J o w with ⟨⟨e, he⟩, hp, -, -⟩ | ⟨hr, hp, hs, -, hd, hn, hpg, hex⟩
  · have hclosed : ∀ i, w.pools.length ≤ i → (NewOrderRepository J o w).2.poolOpen i = false := by
      intro i hi
      rcases hp with hp | hp
      · exact poolOpen_of_length_le _ i (by rw [hp]; exact hi)
      · rw [poolOpen_snoc w _ _ i hp hi]; simp
    refine ⟨fun _ => ⟨e, he⟩, ?_, ?_⟩
    · intro repo e1 h
      rw [he] at h
      simp only [Ret.returned.injEq, Prod.mk.injEq] at h
      exact ⟨h.1.symm, hclosed⟩
    · intro i hi h
      rw [hclosed i hi] at h
      exact absurd h (by decide)
  · refine ⟨?_, ?_, ?_⟩
    · rintro (h | h | h | ⟨d, h⟩)
      · exact absurd hn h
      · exact absurd hpg h
      · exact absurd hex h
      · rw [hs] at h; cases h
    · intro repo e h
      rw [hr] at h
      simp at h
    · intro i hi h
      rw [poolOpen_snoc w _ _ i hp hi] at h
      simp at h
      rw [hr, h]

theorem new_failure_closes_pools_witness :
    (NewOrderRepository nonEmptyJson
        { poolNew := none, ping := some (.transport "connection refused"), exec := none }
        freshWorld).1
      = .returned (none, some (.errorf "failed to ping database: %w"
          (some (.transport "connection refused")))) ∧
    (NewOrderRepository nonEmptyJson
        { poolNew := none, ping := some (.transport "connection refused"), exec := none }
        freshWorld).2.pools = [{ dsn := "postgres://orders", closed := true }] ∧
    (NewOrderRepository nonEmptyJson
        { poolNew := none, ping := some (.transport "connection refused"), exec := none }
        freshWorld).2.poolOpen 0 = false :=
  ⟨by decide, by decide,
    ((new_failure_closes_pools nonEmptyJson
        { poolNew := none, ping := some (.transport "connection refused"), exec := none }
        freshWorld).2.1 none
      (.errorf "failed to ping database: %w" (some (.transport "connection refused")))
      (by decide)).2 0 (by decide)⟩


/-! ## Errors handed to the caller -/

/-- The error of SaveOrder, when it returns one, is the error of its Exec call
itself. -/
theorem saveOrder_error (J : List Nat → Bool) (f : Option DriverError) (r : OrderRepository)
    (w : World) (rec : OrderRecord) (e : GoError)
    (h : (r.SaveOrder J f w rec).1 = .returned (some e)) :
    ∃ p d, r.pool = some p ∧
      (pgxpool.Exec J f w p insertSQL (saveOrderArgs rec)).1 = some d ∧ e = .driver d := by
  unfold OrderRepository.SaveOrder at h
  cases hp : r.pool with
  | none => simp [hp] at h
  | some p =>
    simp only [hp] at h
    cases hx : (pgxpool.Exec J f w p insertSQL (saveOrderArgs rec)).1 with
    | none => simp [hx] at h
    | some d =>
      refine ⟨p, d, rfl, hx, ?_⟩
      simp [hx] at h
      exact h.symm

/-- A failed schema setup: construction hands the caller the error of
ensureSchema as it is, the driver error itself (db.go line 48). -/
theorem schema_error_passed_on :
    (NewOrderRepository nonEmptyJson
        { poolNew := none, ping := none, exec := some (.transport "timeout") } freshWorld).1
      = .returned (none, some (.driver (.transport "timeout"))) := by
  decide

/-- C6 fails as stated: a failed insert of SaveOrder hands the caller the
driver error itself, which is no new error wrapping it; here the NOT NULL
violation of an insert with a nil items slice. -/
theorem errors_wrapped_counterexample :
    (OrderRepository.SaveOrder nonEmptyJson none ⟨some 0⟩ readyWorld orderBNilItems).1
      = .returned (some (.driver (.notNullViolation "items"))) ∧
    (pgxpool.Exec nonEmptyJson none readyWorld 0 insertSQL (saveOrderArgs orderBNilItems)).1
      = some (.notNullViolation "items") ∧
    GoError.wrapsDriver (.driver (.notNullViolation "items")) = false := by
  decide

/-- C6 as amended.  The error construction returns is: for a missing
connection string, a new error with a description and nothing wrapped; for a
failed pool creation and for a failed liveness check, a new error whose
description wraps the driver error.  The error SaveOrder returns is the driver
error of its insert itself, with nothing added. -/
theorem errors_by_kind (J : List Nat → Bool) (o : Stages) (w : World)
    (f : Option DriverError) (r : OrderRepository) (rec : OrderRecord) :
    (w.Getenv "ORDER_DB_DSN" = "" →
      (NewOrderRepository J o w).1 = .returned
        (none, some (.errorf "environment variable ORDER_DB_DSN not set" none))) ∧
    (∀ d, w.Getenv "ORDER_DB_DSN" ≠ "" → o.poolNew = some d →
      (NewOrderRepository J o w).1 = .returned
        (none, some (.errorf "failed to create pgx pool: %w" (some d)))) ∧
    (∀ d, w.Getenv "ORDER_DB_DSN" ≠ "" → o.poolNew = none → o.ping = some d →
      (NewOrderRepository J o w).1 = .returned
        (none, some (.errorf "failed to ping database: %w" (some d)))) ∧
    (∀ e, (r.SaveOrder J f w rec).1 = .returned (some e) →
      ∃ p d, r.pool = some p ∧
        (pgxpool.Exec J f w p insertSQL (saveOrderArgs rec)).1 = some d ∧ e = .driver d) := by
  refine ⟨?_, ?_, ?_, ?_⟩
  · intro h
    rw [new_cases]; simp [h]
  · intro d h hn
    rw [new_cases]; simp [h, hn]
  · intro d h hn hp
    rw [new_cases]; simp [h, hn, hp]
  · intro e h
    exact saveOrder_error J f r w rec e h

theorem errors_by_kind_witness :
    (NewOrderRepository nonEmptyJson
        { poolNew := some (.transport "bad dsn"), ping := none, exec := none } freshWorld).1
      = .returned (none, some (.errorf "failed to create pgx pool: %w"
          (some (.transport "bad dsn")))) ∧
    (NewOrderRepository nonEmptyJson
        { poolNew := none, ping := some (.transport "refused"), exec := none } freshWorld).1
      = .returned (none, some (.errorf "failed to ping database: %w"
          (some (.transport "refused")))) ∧
    ∃ p d, (⟨some 0⟩ : OrderRepository).pool = some p ∧
      (pgxpool.Exec nonEmptyJson none readyWorld p insertSQL (saveOrderArgs orderBNilItems)).1
        = some d ∧
      GoError.driver (.notNullViolation "items") = .driver d :=
  ⟨(errors_by_kind nonEmptyJson
        { poolNew := some (.transport "bad dsn"), ping := none, exec := none } freshWorld
        none ⟨none⟩ orderA).2.1 (.transport "bad dsn") (by decide) rfl,
   (errors_by_kind nonEmptyJson
        { poolNew := none, ping := some (.transport "refused"), exec := none } freshWorld
        none ⟨none⟩ orderA).2.2.1 (.transport "refused") (by decide) rfl rfl,
   (errors_by_kind nonEmptyJson allStagesOk readyWorld none ⟨some 0⟩ orderBNilItems).2.2.2
      (.driver (.notNullViolation "items")) (by decide)⟩

/-! ## Close -/

/-- After Close of a pool the handle is not an open pool. -/
theorem pgxpool_close_poolOpen (w : World) (p : Nat) :
    (pgxpool.Close w p).poolOpen p = false := by
  unfold pgxpool.Close World.poolOpen
  cases h : w.pools[p]? with
  | none => simp [h]
  | some s =>
    have hlt : p < w.pools.length := by
      by_contra hge
      rw [List.getElem?_eq_none (by omega)] at h
      cases h
    simp [h, List.getElem?_set, hlt]

/-- Close of a pool that is closed already leaves the pool list as it is. -/
theorem pgxpool_close_close_pools (w : World) (p : Nat) :
    (pgxpool.Close (pgxpool.Close w p) p).pools = (pgxpool.Close w p).pools := by
  unfold pgxpool.Close
  cases h : w.pools[p]? with
  | none => simp [h]
  | some s =>
    have hlt : p < w.pools.length := by
      by_contra hge
      rw [List.getElem?_eq_none (by omega)] at h
      cases h
    simp [h, List.getElem?_set, hlt]

/-- Close of a pool does not touch the database. -/
theorem pgxpool_close_db (w : World) (p : Nat) : (pgxpool.Close w p).db = w.db := by
  unfold pgxpool.Close
  cases h : w.pools[p]? <;> simp [h]

/-- C8. For a repository that construction returned with no error: its pool is
open, the first Close closes it, and a second Close returns as well and leaves
the pools (that pool closed) and the database as the first Close left them. -/
theorem close_twice (J : List Nat → Bool) (o : Stages) (w w1 : World) (repo : OrderRepository)
    (h : NewOrderRepository J o w = (.returned (some repo, none), w1)) :
    ∃ p, repo.pool = some p ∧ w1.poolOpen p = true ∧
      (repo.Close w1).poolOpen p = false ∧
      (repo.Close (repo.Close w1)).poolOpen p = false ∧
      (repo.Close (repo.Close w1)).pools = (repo.Close w1).pools ∧
      (repo.Close (repo.Close w1)).db = (repo.Close w1).db := by
  rcases new_outcome J o w with ⟨⟨e, he⟩, -⟩ | ⟨hr, hp, -⟩
  · rw [h] at he; simp at he
  · rw [h] at hr hp
    simp only [Ret.returned.injEq, Prod.mk.injEq, Option.some.injEq, and_true] at hr
    subst hr
    refine ⟨w.pools.length, rfl, ?_, ?_, ?_, ?_, ?_⟩
    · rw [poolOpen_snoc w w1 _ _ hp (le_refl _)]; simp
    · exact pgxpool_close_poolOpen w1 _
    · exact pgxpool_close_poolOpen _ _
    · exact pgxpool_close_close_pools w1 _
    · simp only [OrderRepository.Close, pgxpool_close_db]

theorem close_twice_witness :
    ∃ p, (⟨some 0⟩ : OrderRepository).pool = some p ∧
      (NewOrderRepository nonEmptyJson allStagesOk freshWorld).2.poolOpen p = true ∧
      ((⟨some 0⟩ : OrderRepository).Close
        (NewOrderRepository nonEmptyJson allStagesOk freshWorld).2).poolOpen p = false ∧
      ((⟨some 0⟩ : OrderRepository).Close ((⟨some 0⟩ : OrderRepository).Close
        (NewOrderRepository nonEmptyJson allStagesOk freshWorld).2)).poolOpen p = false ∧
      ((⟨some 0⟩ : OrderRepository).Close ((⟨some 0⟩ : OrderRepository).Close
        (NewOrderRepository nonEmptyJson allStagesOk freshWorld).2)).pools
        = ((⟨some 0⟩ : OrderRepository).Close
            (NewOrderRepository nonEmptyJson allStagesOk freshWorld).2).pools ∧
      ((⟨some 0⟩ : OrderRepository).Close ((⟨some 0⟩ : OrderRepository).Close
        (NewOrderRepository nonEmptyJson allStagesOk freshWorld).2)).db
        = ((⟨some 0⟩ : OrderRepository).Close
            (NewOrderRepository nonEmptyJson allStagesOk freshWorld).2).db :=
  close_twice nonEmptyJson allStagesOk freshWorld
    (NewOrderRepository nonEmptyJson allStagesOk freshWorld).2 ⟨some 0⟩ (by decide)

/-- C9. Close on a repository whose pool pointer is nil returns with the world
exactly as it was: nothing is released and no driver call is made. -/
theorem close_nil_pool (r : OrderRepository) (w : World) (h : r.pool = none) :
    r.Close w = w := by
  simp [OrderRepository.Close, h]

theorem close_nil_pool_witness :
    (⟨none⟩ : OrderRepository).Close readyWorld = readyWorld :=
  close_nil_pool ⟨none⟩ readyWorld rfl


/-! ## SaveOrder -/

/-- The candidate row of an insertable record holds the fields of the record. -/
theorem bindRow_insertable (J : List Nat → Bool) (rec : OrderRecord)
    (h : rec.insertable J = true) :
    ∃ row, bindRow J (saveOrderArgs rec) = .ok row ∧ row.hasFieldsOf rec := by
  unfold OrderRecord.insertable at h
  cases ha : rec.ShippingAddressJSON with
  | none => simp [ha] at h
  | some a =>
    cases hi : rec.ItemsJSON with
    | none => simp [ha, hi] at h
    | some i =>
      simp only [ha, hi, Bool.and_eq_true] at h
      refine ⟨{ order_id := rec.OrderID, user_id := rec.UserID, email := rec.Email,
                currency_code := rec.CurrencyCode, total_units := rec.TotalUnits,
                total_nanos := rec.TotalNanos,
                payment_transaction := rec.PaymentTransaction,
                shipping_tracking_id := rec.ShippingTrackingID,
                shipping_address := a, items := i, created_at := rec.CreatedAt }, ?_, ?_⟩
      · simp [bindRow, saveOrderArgs, asText, asInt8, asInt4, asJsonb, asTimestamptz, ha, hi,
          h.1, h.2, bind, Except.bind, pure, Except.pure]
      · simp [Row.hasFieldsOf, ha, hi]

/-- Whatever row the insert of SaveOrder binds has the OrderID of the record
as its order_id. -/
theorem bindRow_order_id (J : List Nat → Bool) (rec : OrderRecord) (row : Row)
    (h : bindRow J (saveOrderArgs rec) = .ok row) : row.order_id = rec.OrderID := by
  cases ha : rec.ShippingAddressJSON with
  | none =>
    simp [bindRow, saveOrderArgs, asText, asInt8, asInt4, asJsonb, asTimestamptz, ha,
      bind, Except.bind, pure, Except.pure] at h
  | some a =>
    cases hi : rec.ItemsJSON with
    | none =>
      by_cases hJa : J a = true <;>
      simp [bindRow, saveOrderArgs, asText, asInt8, asInt4, asJsonb, asTimestamptz, ha, hi,
        hJa, bind, Except.bind, pure, Except.pure] at h
    | some i =>
      by_cases hJa : J a = true <;> by_cases hJi : J i = true <;>
      simp [bindRow, saveOrderArgs, asText, asInt8, asInt4, asJsonb, asTimestamptz, ha, hi,
        hJa, hJi, bind, Except.bind, pure, Except.pure] at h
      rw [← h]

/-- The insert statement on the database: it needs the table, then the
candidate row; a row with the same order_id makes it do nothing. -/
theorem execScript_insertSQL (J : List Nat → Bool) (args : List Value) (db : Database) :
    execScript J args insertSQL db =
      if db.hasTable "orders" then
        match bindRow J args with
        | .error e => .error e
        | .ok row =>
            if db.rows.any (fun r => r.order_id == row.order_id) then .ok db
            else .ok { db with rows := db.rows ++ [row] }
      else .error (.undefinedTable "orders") := by
  simp only [insertSQL, execScript, execStmt]
  by_cases ht : db.hasTable "orders" = true
  · simp only [ht, if_true]
    cases hb : bindRow J args with
    | error e => simp
    | ok row =>
      by_cases hc : (db.rows.any fun r => r.order_id == row.order_id) = true <;> simp [hc]
  · simp [ht]


/-- SaveOrder on an open pool that reaches a database with the orders table,
for a record whose candidate row is accepted: no error, and the row is
appended unless a row with its order_id is stored already. -/
theorem saveOrder_accepted (J : List Nat → Bool) (w : World) (p : Nat) (rec : OrderRecord)
    (row : Row) (hopen : w.poolOpen p = true) (htab : w.db.hasTable "orders" = true)
    (hrow : bindRow J (saveOrderArgs rec) = .ok row) :
    OrderRepository.SaveOrder J none ⟨some p⟩ w rec =
      (.returned none,
        { w with
          log := w.log ++ [.exec p insertSQL],
          db := if w.db.rows.any (fun r => r.order_id == row.order_id) then w.db
                else { w.db with rows := w.db.rows ++ [row] } }) := by
  simp only [OrderRepository.SaveOrder, pgxpool.Exec, hopen, if_true, execScript_insertSQL,
    htab, hrow]
  by_cases hc : (w.db.rows.any fun r => r.order_id == row.order_id) = true <;> simp [hc]

/-- SaveOrder never touches the pools, the environment or the catalog. -/
theorem saveOrder_frame (J : List Nat → Bool) (f : Option DriverError) (r : OrderRepository)
    (w : World) (rec : OrderRecord) :
    (r.SaveOrder J f w rec).2.pools = w.pools ∧
    (r.SaveOrder J f w rec).2.environ = w.environ ∧
    (r.SaveOrder J f w rec).2.db.catalog = w.db.catalog := by
  unfold OrderRepository.SaveOrder
  cases hp : r.pool with
  | none => simp
  | some p =>
    simp only [pgxpool.Exec, execScript_insertSQL]
    by_cases hopen : w.poolOpen p = true
    · simp only [hopen, if_true]
      cases f with
      | some e => simp
      | none =>
        by_cases htab : w.db.hasTable "orders" = true
        · simp only [htab, if_true]
          cases hb : bindRow J (saveOrderArgs rec) with
          | error e => simp
          | ok row =>
            by_cases hc : (w.db.rows.any fun r => r.order_id == row.order_id) = true <;>
              simp [hc]
        · simp [htab]
    · simp [hopen]

/-- One SaveOrder call, whatever its outcome, leaves the rows as they were or
appends one row, which has the OrderID of the record and an order_id that no
stored row has. -/
theorem saveOrder_rows (J : List Nat → Bool) (f : Option DriverError) (r : OrderRepository)
    (w : World) (rec : OrderRecord) :
    (r.SaveOrder J f w rec).2.db.rows = w.db.rows ∨
    ∃ row, row.order_id = rec.OrderID ∧ (∀ x ∈ w.db.rows, x.order_id ≠ row.order_id) ∧
      (r.SaveOrder J f w rec).2.db.rows = w.db.rows ++ [row] := by
  unfold OrderRepository.SaveOrder
  cases hp : r.pool with
  | none => simp
  | some p =>
    simp only [pgxpool.Exec, execScript_insertSQL]
    by_cases hopen : w.poolOpen p = true
    · simp only [hopen, if_true]
      cases f with
      | some e => simp
      | none =>
        by_cases htab : w.db.hasTable "orders" = true
        · simp only [htab, if_true]
          cases hb : bindRow J (saveOrderArgs rec) with
          | error e => simp
          | ok row =>
            by_cases hc : (w.db.rows.any fun r => r.order_id == row.order_id) = true
            · simp [hc]
            · right
              refine ⟨row, bindRow_order_id J rec row hb, ?_, by simp [hc]⟩
              intro x hx hxe
              exact hc (List.any_eq_true.mpr ⟨x, hx, by simp [hxe]⟩)
        · simp [htab]
    · simp [hopen]

/-- Uniqueness of order_id among the stored rows is kept by every SaveOrder
call. -/
theorem saveOrder_nodup (J : List Nat → Bool) (f : Option DriverError) (r : OrderRepository)
    (w : World) (rec : OrderRecord) (h : (w.db.rows.map (·.order_id)).Nodup) :
    ((r.SaveOrder J f w rec).2.db.rows.map (·.order_id)).Nodup := by
  rcases saveOrder_rows J f r w rec with he | ⟨row, -, hnew, he⟩
  · rw [he]; exact h
  · rw [he, List.map_append, List.map_singleton]
    refine List.Nodup.append h (List.nodup_singleton _) ?_
    intro id hid hid2
    rw [List.mem_singleton] at hid2
    obtain ⟨x, hx, hxe⟩ := List.mem_map.mp hid
    exact hnew x hx (hxe.trans hid2)

/-- Uniqueness of order_id is kept by every sequence of SaveOrder calls. -/
theorem saveAll_nodup (J : List Nat → Bool) (calls : List SaveCall) :
    ∀ w : World, (w.db.rows.map (·.order_id)).Nodup →
      ((saveAll J calls w).db.rows.map (·.order_id)).Nodup := by
  induction calls with
  | nil => intro w h; exact h
  | cons c rest ih =>
    intro w h
    exact ih _ (saveOrder_nodup J c.fault c.repo w c.record h)

/-- C2. In every state reached from an empty orders table by a finite sequence
of SaveOrder calls (any records, any repositories, any transport outcomes), no
two stored rows have the same order_id. -/
theorem order_id_unique (J : List Nat → Bool) (calls : List SaveCall) (w : World)
    (hempty : w.db.rows = []) :
    ((saveAll J calls w).db.rows.map (·.order_id)).Nodup :=
  saveAll_nodup J calls w (by rw [hempty]; exact List.nodup_nil)

theorem order_id_unique_witness :
    readyWorld.db.rows = [] ∧
    (saveAll nonEmptyJson
        [⟨none, ⟨some 0⟩, orderA⟩, ⟨none, ⟨some 0⟩, orderB⟩, ⟨none, ⟨some 0⟩, orderC⟩]
        readyWorld).db.rows.map (·.order_id) = ["order-1", "order-2"] ∧
    ((saveAll nonEmptyJson
        [⟨none, ⟨some 0⟩, orderA⟩, ⟨none, ⟨some 0⟩, orderB⟩, ⟨none, ⟨some 0⟩, orderC⟩]
        readyWorld).db.rows.map (·.order_id)).Nodup :=
  ⟨rfl, by decide,
    order_id_unique nonEmptyJson
      [⟨none, ⟨some 0⟩, orderA⟩, ⟨none, ⟨some 0⟩, orderB⟩, ⟨none, ⟨some 0⟩, orderC⟩]
      readyWorld rfl⟩


/-- The lookup by order_id after a row is appended to rows that have no row of
that order_id. -/
theorem rowsWithId_append_new (db : Database) (row : Row) (id : String)
    (hnone : db.rowsWithId id = []) (hrow : row.order_id = id) :
    Database.rowsWithId { db with rows := db.rows ++ [row] } id = [row] := by
  unfold Database.rowsWithId at *
  simp [List.filter_append, hnone, List.filter_cons, hrow]

/-- No stored row has the order_id exactly when the lookup by it is empty. -/
theorem any_order_id_eq_false (db : Database) (id : String) (hnone : db.rowsWithId id = []) :
    (db.rows.any fun r => r.order_id == id) = false := by
  unfold Database.rowsWithId at hnone
  rw [List.filter_eq_nil_iff] at hnone
  rw [Bool.eq_false_iff]
  intro h
  obtain ⟨x, hx, hxe⟩ := List.any_eq_true.mp h
  exact hnone x hx hxe

/-- C1 fails as stated.  When the first record has a nil address slice its
insert violates NOT NULL and stores nothing, so the second record is the one
stored: the row under the shared identifier shows total_units 20 and the other
values of the second record.  And when the second record has a nil items slice
the second call returns the NOT NULL violation although the identifier is
stored already. -/
theorem first_write_wins_counterexample :
    orderB.OrderID = orderANilAddress.OrderID ∧
    readyWorld.db.rowsWithId orderANilAddress.OrderID = [] ∧
    (OrderRepository.SaveOrder nonEmptyJson none ⟨some 0⟩ readyWorld orderANilAddress).1
      = .returned (some (.driver (.notNullViolation "shipping_address"))) ∧
    (OrderRepository.SaveOrder nonEmptyJson none ⟨some 0⟩
        (OrderRepository.SaveOrder nonEmptyJson none ⟨some 0⟩ readyWorld orderANilAddress).2
        orderB).2.db.rowsWithId orderANilAddress.OrderID
      = [{ order_id := "order-1", user_id := "user-2", email := "b@example.com",
           currency_code := "EUR", total_units := 20, total_nanos := 5,
           payment_transaction := "pay-2", shipping_tracking_id := "ship-2",
           shipping_address := [123, 125], items := [91, 93], created_at := 1700000001 }] ∧
    orderBNilItems.OrderID = orderA.OrderID ∧
    (OrderRepository.SaveOrder nonEmptyJson none ⟨some 0⟩
        (OrderRepository.SaveOrder nonEmptyJson none ⟨some 0⟩ readyWorld orderA).2
        orderBNilItems).1
      = .returned (some (.driver (.notNullViolation "items"))) := by
  decide

/-- C1 as amended.  On an open pool whose calls reach a database that has the
orders table and no row with the OrderID, for two records with that OrderID of
which the first is insertable (both byte slices non-nil and JSON documents):
the first SaveOrder returns no error; after the second SaveOrder the table
holds exactly one row with that OrderID, appended to the rows that were there,
and its eleven columns hold the fields of the first record; and the second call
returns no error when the second record is insertable as well. -/
theorem first_write_wins (J : List Nat → Bool) (w : World) (p : Nat) (r1 r2 : OrderRecord)
    (hopen : w.poolOpen p = true) (htab : w.db.hasTable "orders" = true)
    (hfresh : w.db.rowsWithId r1.OrderID = [])
    (hid : r2.OrderID = r1.OrderID)
    (h1 : r1.insertable J = true) :
    (OrderRepository.SaveOrder J none ⟨some p⟩ w r1).1 = .returned none ∧
    (r2.insertable J = true →
      (OrderRepository.SaveOrder J none ⟨some p⟩
        (OrderRepository.SaveOrder J none ⟨some p⟩ w r1).2 r2).1 = .returned none) ∧
    ∃ row, row.hasFieldsOf r1 ∧
      (OrderRepository.SaveOrder J none ⟨some p⟩
        (OrderRepository.SaveOrder J none ⟨some p⟩ w r1).2 r2).2.db.rows = w.db.rows ++ [row] ∧
      (OrderRepository.SaveOrder J none ⟨some p⟩
        (OrderRepository.SaveOrder J none ⟨some p⟩ w r1).2 r2).2.db.rowsWithId r1.OrderID
        = [row] := by
  obtain ⟨row, hb, hf⟩ := bindRow_insertable J r1 h1
  have hrid : row.order_id = r1.OrderID := hf.1
  have hs1 := saveOrder_accepted J w p r1 row hopen htab hb
  have hany : (w.db.rows.any fun r => r.order_id == row.order_id) = false := by
    rw [hrid]; exact any_order_id_eq_false w.db _ hfresh
  simp only [hany, Bool.false_eq_true, if_false] at hs1
  have hrows1 : (OrderRepository.SaveOrder J none ⟨some p⟩ w r1).2.db.rows = w.db.rows ++ [row] := by
    rw [hs1]
  have hframe := saveOrder_frame J none ⟨some p⟩ w r1
  have hopen1 : (OrderRepository.SaveOrder J none ⟨some p⟩ w r1).2.poolOpen p = true := by
    unfold World.poolOpen at hopen ⊢
    rw [hframe.1]; exact hopen
  have htab1 : (OrderRepository.SaveOrder J none ⟨some p⟩ w r1).2.db.hasTable "orders" = true := by
    unfold Database.hasTable at htab ⊢
    rw [hframe.2.2]; exact htab
  have hrows2 : (OrderRepository.SaveOrder J none ⟨some p⟩
      (OrderRepository.SaveOrder J none ⟨some p⟩ w r1).2 r2).2.db.rows = w.db.rows ++ [row] := by
    rcases saveOrder_rows J none ⟨some p⟩ (OrderRepository.SaveOrder J none ⟨some p⟩ w r1).2 r2
      with he | ⟨row2, hid2, hnew, -⟩
    · rw [he, hrows1]
    · exfalso
      refine hnew row ?_ ?_
      · rw [hrows1]; simp
      · rw [hrid, hid2, hid]
  refine ⟨by rw [hs1], ?_, row, hf, hrows2, ?_⟩
  · intro h2
    obtain ⟨row2, hb2, -⟩ := bindRow_insertable J r2 h2
    rw [saveOrder_accepted J _ p r2 row2 hopen1 htab1 hb2]
  · have := rowsWithId_append_new w.db row r1.OrderID hfresh hrid
    unfold Database.rowsWithId at this ⊢
    rw [hrows2]
    exact this

theorem first_write_wins_witness :
    (OrderRepository.SaveOrder nonEmptyJson none ⟨some 0⟩ readyWorld orderA).1
      = .returned none ∧
    (orderB.insertable nonEmptyJson = true →
      (OrderRepository.SaveOrder nonEmptyJson none ⟨some 0⟩
        (OrderRepository.SaveOrder nonEmptyJson none ⟨some 0⟩ readyWorld orderA).2
        orderB).1 = .returned none) ∧
    ∃ row, row.hasFieldsOf orderA ∧
      (OrderRepository.SaveOrder nonEmptyJson none ⟨some 0⟩
        (OrderRepository.SaveOrder nonEmptyJson none ⟨some 0⟩ readyWorld orderA).2
        orderB).2.db.rows = readyWorld.db.rows ++ [row] ∧
      (OrderRepository.SaveOrder nonEmptyJson none ⟨some 0⟩
        (OrderRepository.SaveOrder nonEmptyJson none ⟨some 0⟩ readyWorld orderA).2
        orderB).2.db.rowsWithId orderA.OrderID = [row] :=
  first_write_wins nonEmptyJson readyWorld 0 orderA orderB
    (by decide) (by decide) (by decide) (by decide) (by decide)


/-- C5 fails as stated.  When the second record has a nil items slice its
insert violates NOT NULL: the second call returns that error, the table holds
one row and not two, and the lookup by the second identifier finds nothing. -/
theorem distinct_orders_counterexample :
    orderA.OrderID ≠ orderCNilItems.OrderID ∧
    readyWorld.db.rows = [] ∧
    (OrderRepository.SaveOrder nonEmptyJson none ⟨some 0⟩
        (OrderRepository.SaveOrder nonEmptyJson none ⟨some 0⟩ readyWorld orderA).2
        orderCNilItems).1
      = .returned (some (.driver (.notNullViolation "items"))) ∧
    (OrderRepository.SaveOrder nonEmptyJson none ⟨some 0⟩
        (OrderRepository.SaveOrder nonEmptyJson none ⟨some 0⟩ readyWorld orderA).2
        orderCNilItems).2.db.rows.length = 1 ∧
    (OrderRepository.SaveOrder nonEmptyJson none ⟨some 0⟩
        (OrderRepository.SaveOrder nonEmptyJson none ⟨some 0⟩ readyWorld orderA).2
        orderCNilItems).2.db.rowsWithId orderCNilItems.OrderID = [] := by
  decide

/-- C5 as amended.  On an open pool whose calls reach a database that has the
orders table with no rows, for two insertable records (both byte slices non-nil
and JSON documents) with distinct OrderIDs saved in sequence: both calls return
no error, the table holds exactly two rows, the first with the fields of the
first record and the second with the fields of the second, column by column,
and the lookup by each order_id yields exactly the row of that record. -/
theorem distinct_orders_stored (J : List Nat → Bool) (w : World) (p : Nat)
    (r1 r2 : OrderRecord)
    (hopen : w.poolOpen p = true) (htab : w.db.hasTable "orders" = true)
    (hempty : w.db.rows = [])
    (hne : r1.OrderID ≠ r2.OrderID)
    (h1 : r1.insertable J = true) (h2 : r2.insertable J = true) :
    (OrderRepository.SaveOrder J none ⟨some p⟩ w r1).1 = .returned none ∧
    (OrderRepository.SaveOrder J none ⟨some p⟩
      (OrderRepository.SaveOrder J none ⟨some p⟩ w r1).2 r2).1 = .returned none ∧
    ∃ row1 row2, row1.hasFieldsOf r1 ∧ row2.hasFieldsOf r2 ∧
      (OrderRepository.SaveOrder J none ⟨some p⟩
        (OrderRepository.SaveOrder J none ⟨some p⟩ w r1).2 r2).2.db.rows = [row1, row2] ∧
      (OrderRepository.SaveOrder J none ⟨some p⟩
        (OrderRepository.SaveOrder J none ⟨some p⟩ w r1).2 r2).2.db.rowsWithId r1.OrderID
        = [row1] ∧
      (OrderRepository.SaveOrder J none ⟨some p⟩
        (OrderRepository.SaveOrder J none ⟨some p⟩ w r1).2 r2).2.db.rowsWithId r2.OrderID
        = [row2] := by
  obtain ⟨row1, hb1, hf1⟩ := bindRow_insertable J r1 h1
  obtain ⟨row2, hb2, hf2⟩ := bindRow_insertable J r2 h2
  have hid1 : row1.order_id = r1.OrderID := hf1.1
  have hid2 : row2.order_id = r2.OrderID := hf2.1
  have hs1 := saveOrder_accepted J w p r1 row1 hopen htab hb1
  simp only [hempty, List.any_nil, Bool.false_eq_true, if_false, List.nil_append] at hs1
  have hframe := saveOrder_frame J none ⟨some p⟩ w r1
  have hopen1 : (OrderRepository.SaveOrder J none ⟨some p⟩ w r1).2.poolOpen p = true := by
    unfold World.poolOpen at hopen ⊢
    rw [hframe.1]; exact hopen
  have htab1 : (OrderRepository.SaveOrder J none ⟨some p⟩ w r1).2.db.hasTable "orders" = true := by
    unfold Database.hasTable at htab ⊢
    rw [hframe.2.2]; exact htab
  have hs2 := saveOrder_accepted J _ p r2 row2 hopen1 htab1 hb2
  have hrows1 : (OrderRepository.SaveOrder J none ⟨some p⟩ w r1).2.db.rows = [row1] := by
    rw [hs1]
  have hne12 : ¬ row1.order_id = row2.order_id := by
    rw [hid1, hid2]; exact hne
  have hany : ([row1].any fun r => r.order_id == row2.order_id) = false := by
    simp [hne12]
  simp only [hrows1, hany, Bool.false_eq_true, if_false, List.singleton_append] at hs2
  refine ⟨by rw [hs1], by rw [hs2], row1, row2, hf1, hf2, by rw [hs2], ?_, ?_⟩
  · rw [hs2]
    simp [Database.rowsWithId, List.filter_cons, hid1, hid2, Ne.symm hne]
  · rw [hs2]
    simp [Database.rowsWithId, List.filter_cons, hid1, hid2, hne]

theorem distinct_orders_stored_witness :
    (OrderRepository.SaveOrder nonEmptyJson none ⟨some 0⟩ readyWorld orderA).1
      = .returned none ∧
    (OrderRepository.SaveOrder nonEmptyJson none ⟨some 0⟩
      (OrderRepository.SaveOrder nonEmptyJson none ⟨some 0⟩ readyWorld orderA).2
      orderC).1 = .returned none ∧
    ∃ row1 row2, row1.hasFieldsOf orderA ∧ row2.hasFieldsOf orderC ∧
      (OrderRepository.SaveOrder nonEmptyJson none ⟨some 0⟩
        (OrderRepository.SaveOrder nonEmptyJson none ⟨some 0⟩ readyWorld orderA).2
        orderC).2.db.rows = [row1, row2] ∧
      (OrderRepository.SaveOrder nonEmptyJson none ⟨some 0⟩
        (OrderRepository.SaveOrder nonEmptyJson none ⟨some 0⟩ readyWorld orderA).2
        orderC).2.db.rowsWithId orderA.OrderID = [row1] ∧
      (OrderRepository.SaveOrder nonEmptyJson none ⟨some 0⟩
        (OrderRepository.SaveOrder nonEmptyJson none ⟨some 0⟩ readyWorld orderA).2
        orderC).2.db.rowsWithId orderC.OrderID = [row2] :=
  distinct_orders_stored nonEmptyJson readyWorld 0 orderA orderC
    (by decide) (by decide) (by decide) (by decide) (by decide) (by decide)

/-! ## Schema setup -/

theorem any_ensureRelation_of_any (cat : List Relation) (rel : Relation)
    (P : Relation → Bool) (h : cat.any P = true) : (ensureRelation cat rel).any P = true := by
  unfold ensureRelation
  split
  · exact h
  · rw [List.any_append, h, Bool.true_or]

theorem any_name_ensureRelation (cat : List Relation) (rel : Relation) :
    (ensureRelation cat rel).any (fun r => r.name == rel.name) = true := by
  unfold ensureRelation
  split
  · assumption
  · simp

theorem ensureRelation_of_any (cat : List Relation) (rel : Relation)
    (h : cat.any (fun r => r.name == rel.name) = true) : ensureRelation cat rel = cat := by
  unfold ensureRelation
  rw [if_pos h]

theorem nodup_ensureRelation (cat : List Relation) (rel : Relation)
    (h : (cat.map (·.name)).Nodup) : ((ensureRelation cat rel).map (·.name)).Nodup := by
  unfold ensureRelation
  split
  · exact h
  · rename_i hn
    rw [List.map_append, List.map_singleton]
    refine List.Nodup.append h (List.nodup_singleton _) ?_
    intro n hn1 hn2
    rw [List.mem_singleton] at hn2
    obtain ⟨x, hx, hxe⟩ := List.mem_map.mp hn1
    exact hn (List.any_eq_true.mpr ⟨x, hx, by simp [hxe, hn2]⟩)

theorem countP_name_eq_one (cat : List Relation) (n : String)
    (h : (cat.map (·.name)).Nodup) (hin : cat.any (fun r => r.name == n) = true) :
    cat.countP (fun r => r.name == n) = 1 := by
  have hmem : n ∈ cat.map (·.name) := by
    obtain ⟨x, hx, hxe⟩ := List.any_eq_true.mp hin
    exact List.mem_map.mpr ⟨x, hx, by simpa using hxe⟩
  have := List.count_eq_one_of_mem h hmem
  rw [List.count, List.countP_map] at this
  rw [← this]
  congr 1

theorem execStmt_createTable (J : List Nat → Bool) (db : Database) (n : String) :
    execStmt J [] (.createTable true n) db =
      .ok { catalog := ensureRelation db.catalog ⟨n, .table⟩,
            rows := if db.hasRelation n then db.rows
                    else if n = "orders" then [] else db.rows } := by
  unfold execStmt ensureRelation Database.hasRelation
  by_cases h : (db.catalog.any fun r => r.name == n) = true <;> simp [h]

theorem execStmt_createIndex (J : List Nat → Bool) (db : Database) (n t c : String) (d : Bool) :
    execStmt J [] (.createIndex true n t c d) db =
      if db.hasTable t then
        .ok { db with catalog := ensureRelation db.catalog ⟨n, .index t c d⟩ }
      else .error (.undefinedTable t) := by
  unfold execStmt ensureRelation Database.hasRelation
  by_cases ht : db.hasTable t = true
  · by_cases h : (db.catalog.any fun r => r.name == n) = true <;> simp [h, ht]
  · simp [ht]

theorem execScript_schema (J : List Nat → Bool) (db : Database) :
    execScript J [] schema db =
      if (ensureRelation db.catalog ⟨"orders", .table⟩).any
          (fun r => r.name == "orders" && r.kind == RelKind.table) then
        .ok { catalog := ensureRelation (ensureRelation
                (ensureRelation db.catalog ⟨"orders", .table⟩)
                ⟨"idx_orders_user_id", .index "orders" "user_id" false⟩)
                ⟨"idx_orders_created_at", .index "orders" "created_at" true⟩,
              rows := if db.hasRelation "orders" then db.rows else [] }
      else .error (.undefinedTable "orders") := by
  simp only [schema, execScript, execStmt_createTable, execStmt_createIndex,
    Database.hasTable]
  by_cases ht : ((ensureRelation db.catalog ⟨"orders", .table⟩).any
      fun r => r.name == "orders" && r.kind == RelKind.table) = true
  · have ht2 := any_ensureRelation_of_any _
      ⟨"idx_orders_user_id", .index "orders" "user_id" false⟩ _ ht
    simp only [ht, ht2, if_true]
  · simp only [ht]
    simp

/-- A successful construction leaves the catalog the three ensured relations
make, with orders a table. -/
theorem new_success_catalog (J : List Nat → Bool) (o : Stages) (w w1 : World)
    (repo : OrderRepository)
    (h1 : NewOrderRepository J o w = (.returned (some repo, none), w1)) :
    w1.db.catalog = ensureRelation (ensureRelation
        (ensureRelation w.db.catalog ⟨"orders", .table⟩)
        ⟨"idx_orders_user_id", .index "orders" "user_id" false⟩)
        ⟨"idx_orders_created_at", .index "orders" "created_at" true⟩ ∧
    w1.db.rows = (if w.db.hasRelation "orders" then w.db.rows else []) ∧
    (ensureRelation w.db.catalog ⟨"orders", .table⟩).any
      (fun r => r.name == "orders" && r.kind == RelKind.table) = true := by
  rcases new_outcome J o w with ⟨⟨e, he⟩, -⟩ | ⟨-, -, hs, -⟩
  · rw [h1] at he; simp at he
  · rw [h1, execScript_schema] at hs
    by_cases ht : ((ensureRelation w.db.catalog ⟨"orders", .table⟩).any
        fun r => r.name == "orders" && r.kind == RelKind.table) = true
    · simp only [ht, if_true, Except.ok.injEq] at hs
      rw [← hs]
      exact ⟨rfl, rfl, ht⟩
    · simp [ht] at hs

/-- C7 fails as stated: on a database that already has an orders table with an
index of its own, construction succeeds twice and the table then has three
secondary indexes, not exactly the two of the schema script. -/
theorem schema_setup_counterexample :
    (NewOrderRepository nonEmptyJson allStagesOk legacyWorld).1
      = .returned (some ⟨some 0⟩, none) ∧
    (NewOrderRepository nonEmptyJson allStagesOk
        (NewOrderRepository nonEmptyJson allStagesOk legacyWorld).2).1
      = .returned (some ⟨some 1⟩, none) ∧
    (NewOrderRepository nonEmptyJson allStagesOk
        (NewOrderRepository nonEmptyJson allStagesOk legacyWorld).2).2.db.indexesOn "orders"
      = [ ⟨"idx_orders_email", .index "orders" "email" false⟩,
          ⟨"idx_orders_user_id", .index "orders" "user_id" false⟩,
          ⟨"idx_orders_created_at", .index "orders" "created_at" true⟩ ] := by
  decide

/-- C7 as amended.  For every database whose catalog names are unique on which
construction has succeeded: a further construction with the connection string
set and every driver call reaching the database, run against a database with
the catalog the first run left, returns no error and leaves catalog and rows
exactly as they were; that catalog has a table named orders and exactly one
relation under each of the names orders, idx_orders_user_id and
idx_orders_created_at; and when none of the three names was taken before the
first run, the first run adds exactly the empty orders table and the two indexes
on orders(user_id) and orders(created_at DESC) to the relations that were
there.  Relations that existed before stay, other indexes on orders among
them. -/
theorem schema_setup_idempotent (J : List Nat → Bool) (o : Stages) (w w1 w2 : World)
    (repo : OrderRepository)
    (hwf : (w.db.catalog.map (·.name)).Nodup)
    (h1 : NewOrderRepository J o w = (.returned (some repo, none), w1))
    (hcat : w2.db.catalog = w1.db.catalog)
    (hdsn : w2.Getenv "ORDER_DB_DSN" ≠ "") :
    (NewOrderRepository J allStagesOk w2).1 = .returned (some ⟨some w2.pools.length⟩, none) ∧
    (NewOrderRepository J allStagesOk w2).2.db = w2.db ∧
    w1.db.hasTable "orders" = true ∧
    w1.db.relationCount "orders" = 1 ∧
    w1.db.relationCount "idx_orders_user_id" = 1 ∧
    w1.db.relationCount "idx_orders_created_at" = 1 ∧
    (w.db.hasRelation "orders" = false → w.db.hasRelation "idx_orders_user_id" = false →
      w.db.hasRelation "idx_orders_created_at" = false →
      w1.db.catalog = w.db.catalog ++ schemaRelations ∧ w1.db.rows = []) := by
  obtain ⟨hc1, hr1, ht⟩ := new_success_catalog J o w w1 repo h1
  -- what the catalog of the first run holds
  have hT : w1.db.hasTable "orders" = true := by
    unfold Database.hasTable
    rw [hc1]
    exact any_ensureRelation_of_any _ _ _ (any_ensureRelation_of_any _ _ _ ht)
  have hR0 : w1.db.catalog.any (fun r => r.name == "orders") = true := by
    rw [hc1]
    exact any_ensureRelation_of_any _ _ _ (any_ensureRelation_of_any _ _ _
      (any_name_ensureRelation w.db.catalog ⟨"orders", .table⟩))
  have hR1 : w1.db.catalog.any (fun r => r.name == "idx_orders_user_id") = true := by
    rw [hc1]
    exact any_ensureRelation_of_any _ _ _
      (any_name_ensureRelation _ ⟨"idx_orders_user_id", .index "orders" "user_id" false⟩)
  have hR2 : w1.db.catalog.any (fun r => r.name == "idx_orders_created_at") = true := by
    rw [hc1]
    exact any_name_ensureRelation _
      ⟨"idx_orders_created_at", .index "orders" "created_at" true⟩
  have hnd : (w1.db.catalog.map (·.name)).Nodup := by
    rw [hc1]
    exact nodup_ensureRelation _ _ (nodup_ensureRelation _ _ (nodup_ensureRelation _ _ hwf))
  -- the second run
  have hs2 : execScript J [] schema w2.db = .ok w2.db := by
    rw [execScript_schema, hcat]
    have e0 := ensureRelation_of_any w1.db.catalog ⟨"orders", .table⟩ hR0
    have e1 := ensureRelation_of_any w1.db.catalog
      ⟨"idx_orders_user_id", .index "orders" "user_id" false⟩ hR1
    have e2 := ensureRelation_of_any w1.db.catalog
      ⟨"idx_orders_created_at", .index "orders" "created_at" true⟩ hR2
    have hT2 : w1.db.catalog.any (fun r => r.name == "orders" && r.kind == RelKind.table)
        = true := hT
    have hrel : w2.db.hasRelation "orders" = true := by
      unfold Database.hasRelation
      rw [hcat]; exact hR0
    rw [e0, e1, e2, hT2, hrel]
    simp only [if_true]
    rw [← hcat]
  have hnew := new_cases J allStagesOk w2
  simp only [hdsn, if_false, allStagesOk, hs2] at hnew
  unfold allStagesOk
  refine ⟨by rw [hnew], by rw [hnew], hT, ?_, ?_, ?_, ?_⟩
  · exact countP_name_eq_one _ _ hnd hR0
  · exact countP_name_eq_one _ _ hnd hR1
  · exact countP_name_eq_one _ _ hnd hR2
  · intro f0 f1 f2
    unfold Database.hasRelation at f0 f1 f2
    refine ⟨?_, by rw [hr1]; simp [Database.hasRelation, f0]⟩
    rw [hc1]
    simp [ensureRelation, f0, f1, f2, schemaRelations]

theorem schema_setup_idempotent_witness :
    (NewOrderRepository nonEmptyJson allStagesOk
        (NewOrderRepository nonEmptyJson allStagesOk freshWorld).2).1
      = .returned (some ⟨some 1⟩, none) ∧
    (NewOrderRepository nonEmptyJson allStagesOk
        (NewOrderRepository nonEmptyJson allStagesOk freshWorld).2).2.db
      = (NewOrderRepository nonEmptyJson allStagesOk freshWorld).2.db ∧
    (NewOrderRepository nonEmptyJson allStagesOk freshWorld).2.db.catalog = schemaRelations :=
  ⟨(schema_setup_idempotent nonEmptyJson allStagesOk freshWorld
      (NewOrderRepository nonEmptyJson allStagesOk freshWorld).2
      (NewOrderRepository nonEmptyJson allStagesOk freshWorld).2 ⟨some 0⟩
      (by decide) (by decide) rfl (by decide)).1,
   (schema_setup_idempotent nonEmptyJson allStagesOk freshWorld
      (NewOrderRepository nonEmptyJson allStagesOk freshWorld).2
      (NewOrderRepository nonEmptyJson allStagesOk freshWorld).2 ⟨some 0⟩
      (by decide) (by decide) rfl (by decide)).2.1,
   ((schema_setup_idempotent nonEmptyJson allStagesOk freshWorld
      (NewOrderRepository nonEmptyJson allStagesOk freshWorld).2
      (NewOrderRepository nonEmptyJson allStagesOk freshWorld).2 ⟨some 0⟩
      (by decide) (by decide) rfl (by decide)).2.2.2.2.2.2
      (by decide) (by decide) (by decide)).1⟩

/-! ## Replays of one identifier, and calls after Close -/

/-- Saves of insertable records under an identifier that is stored already all
return no error and leave the database as it is. -/
theorem saveEach_stored (J : List Nat → Bool) (p : Nat) (id : String)
    (recs : List OrderRecord) :
    ∀ w : World, w.poolOpen p = true → w.db.hasTable "orders" = true →
      (∃ x ∈ w.db.rows, x.order_id = id) →
      (∀ r ∈ recs, r.OrderID = id ∧ r.insertable J = true) →
      (∀ res ∈ (saveEach J (savesOn p recs) w).1, res = .returned none) ∧
      (saveEach J (savesOn p recs) w).2.db = w.db := by
  induction recs with
  | nil => intro w _ _ _ _; simp [savesOn, saveEach]
  | cons r rest ih =>
    intro w hopen htab hin hall
    obtain ⟨hrid, hins⟩ := hall r (List.mem_cons_self _ _)
    obtain ⟨row, hb, hf⟩ := bindRow_insertable J r hins
    have hs := saveOrder_accepted J w p r row hopen htab hb
    have hany : (w.db.rows.any fun x => x.order_id == row.order_id) = true := by
      obtain ⟨x, hx, hxe⟩ := hin
      exact List.any_eq_true.mpr ⟨x, hx, by simp [hxe, hf.1, hrid]⟩
    simp only [hany, if_true] at hs
    have hopen1 : World.poolOpen
        { w with log := w.log ++ [.exec p insertSQL], db := w.db } p = true := hopen
    have ih1 := ih { w with log := w.log ++ [.exec p insertSQL], db := w.db } hopen1 htab hin
      (fun r1 hr1 => hall r1 (List.mem_cons_of_mem _ hr1))
    simp only [savesOn, List.map_cons, saveEach, hs] at ih1 ⊢
    refine ⟨?_, ih1.2⟩
    intro res hres
    rcases List.mem_cons.mp hres with h | h
    · exact h
    · exact ih1.1 res h

/-- X1. Replays in any order: for every non-empty sequence of insertable
records that share one OrderID, saved one after the other on an open pool whose
calls reach a database with the orders table and no row of that OrderID, every
call returns no error and the table ends with exactly one row of that OrderID,
which holds the fields of the record saved first. -/
theorem replays_keep_first (J : List Nat → Bool) (w : World) (p : Nat) (r0 : OrderRecord)
    (rest : List OrderRecord)
    (hopen : w.poolOpen p = true) (htab : w.db.hasTable "orders" = true)
    (hfresh : w.db.rowsWithId r0.OrderID = [])
    (h0 : r0.insertable J = true)
    (hall : ∀ r ∈ rest, r.OrderID = r0.OrderID ∧ r.insertable J = true) :
    (∀ res ∈ (saveEach J (savesOn p (r0 :: rest)) w).1, res = .returned none) ∧
    ∃ row, row.hasFieldsOf r0 ∧
      (saveEach J (savesOn p (r0 :: rest)) w).2.db.rows = w.db.rows ++ [row] ∧
      (saveEach J (savesOn p (r0 :: rest)) w).2.db.rowsWithId r0.OrderID = [row] := by
  obtain ⟨row, hb, hf⟩ := bindRow_insertable J r0 h0
  have hrid : row.order_id = r0.OrderID := hf.1
  have hs := saveOrder_accepted J w p r0 row hopen htab hb
  have hany : (w.db.rows.any fun r => r.order_id == row.order_id) = false := by
    rw [hrid]; exact any_order_id_eq_false w.db _ hfresh
  simp only [hany, Bool.false_eq_true, if_false] at hs
  have hopen1 : World.poolOpen
      { w with log := w.log ++ [.exec p insertSQL],
               db := { w.db with rows := w.db.rows ++ [row] } } p = true := hopen
  have htab1 : Database.hasTable { w.db with rows := w.db.rows ++ [row] } "orders" = true :=
    htab
  have ih := saveEach_stored J p r0.OrderID rest
    { w with log := w.log ++ [.exec p insertSQL],
             db := { w.db with rows := w.db.rows ++ [row] } } hopen1 htab1
    ⟨row, by simp, hrid⟩ hall
  simp only [savesOn, List.map_cons, saveEach, hs] at ih ⊢
  refine ⟨?_, row, hf, by rw [ih.2], ?_⟩
  · intro res hres
    rcases List.mem_cons.mp hres with h | h
    · exact h
    · exact ih.1 res h
  · rw [ih.2]
    exact rowsWithId_append_new w.db row r0.OrderID hfresh hrid

theorem replays_keep_first_witness :
    (∀ res ∈ (saveEach nonEmptyJson (savesOn 0 [orderB, orderA, orderB]) readyWorld).1,
      res = .returned none) ∧
    ∃ row, row.hasFieldsOf orderB ∧
      (saveEach nonEmptyJson (savesOn 0 [orderB, orderA, orderB]) readyWorld).2.db.rows
        = readyWorld.db.rows ++ [row] ∧
      (saveEach nonEmptyJson (savesOn 0 [orderB, orderA, orderB])
        readyWorld).2.db.rowsWithId orderB.OrderID = [row] :=
  replays_keep_first nonEmptyJson readyWorld 0 orderB [orderA, orderB]
    (by decide) (by decide) (by decide) (by decide) (by decide)

/-- X2. SaveOrder on a repository whose pool has been closed is not guarded: it
returns the closed-pool error of the driver as it is and leaves the database
unchanged. -/
theorem saveOrder_after_close (J : List Nat → Bool) (f : Option DriverError) (w : World)
    (p : Nat) (rec : OrderRecord) :
    (OrderRepository.SaveOrder J f ⟨some p⟩
        ((⟨some p⟩ : OrderRepository).Close w) rec).1
      = .returned (some (.driver .closedPool)) ∧
    (OrderRepository.SaveOrder J f ⟨some p⟩
        ((⟨some p⟩ : OrderRepository).Close w) rec).2.db = w.db := by
  have hc : World.poolOpen ((⟨some p⟩ : OrderRepository).Close w) p = false :=
    pgxpool_close_poolOpen w p
  have hd : ((⟨some p⟩ : OrderRepository).Close w).db = w.db := pgxpool_close_db w p
  simp only [OrderRepository.SaveOrder, pgxpool.Exec, hc, Bool.false_eq_true, if_false,
    Option.map_some', hd]
  exact ⟨trivial, trivial⟩

end Checkout
